import Mathlib

/-!
Verification of the scraping-airbnb pipeline core.

Shallow embedding of the Go sources:
  * scraper/airbnb/chromedp_scraper.go  (retryWithBackoff, Scrape,
    extractCardLinks, extractProperty, the Stage B semaphore)
  * service/scraper_service.go          (retryWithBackoff, Run)
  * utils/utils.go                      (ParsePrice, ParseRating)
  * internal/domain/postgres_repository.go (Save)
  * config/settings.go                  (Default and Dev configurations)

Conventions: Go time.Duration values are Nat nanoseconds; float32 prices and
ratings are rationals; browser effects (chromedp.Run, page DOM reads) are
oracles passed as function parameters; goroutine interleavings are traces of
events over an explicit step relation.
-/

/-- Output record of the scraper: models.Property in the source, with the
columns of the properties table. float32 fields are modelled as rationals. -/
structure Property where
  Platform : String
  Title : String
  Price : Rat
  Location : String
  URL : String
  Rating : Rat
  Description : String
  deriving DecidableEq

/-- Value of a digit string, most significant first, as in strconv. -/
def digitsVal (l : List Char) : Nat :=
  l.foldl (fun n c => n * 10 + (c.toNat - 48)) 0

/-- Optional leading sign of a numeric literal. -/
def parseSign (l : List Char) : Rat × List Char :=
  match l with
  | c :: r => if c == '-' then (-1, r) else if c == '+' then (1, r) else (1, c :: r)
  | [] => (1, [])

/-- Model of strconv.ParseFloat on plain decimal literals: optional sign,
digits, optional fraction, at least one digit overall; anything else
(in particular the empty string) fails. -/
def goParseFloat (l : List Char) : Option Rat :=
  let sr := parseSign l
  let ip := sr.2.takeWhile Char.isDigit
  let rest := sr.2.dropWhile Char.isDigit
  match rest with
  | [] => if ip.isEmpty then none else some (sr.1 * (digitsVal ip : Rat))
  | c :: fr =>
      if c == '.' && fr.all Char.isDigit && !(ip.isEmpty && fr.isEmpty) then
        some (sr.1 * ((digitsVal ip : Rat) + (digitsVal fr : Rat) / ((10 : Rat) ^ fr.length)))
      else none

/-- utils.ParsePrice: strip every dollar sign and comma, then ParseFloat;
the Go code discards the parse error, so failure yields 0. -/
def ParsePrice (price : String) : Rat :=
  let cleaned := (price.toList.filter (fun c => c != '$')).filter (fun c => c != ',')
  (goParseFloat cleaned).getD 0

/-- utils.ParseRating: ParseFloat with the error discarded, so failure
yields 0. -/
def ParseRating (rating : String) : Rat :=
  (goParseFloat rating.toList).getD 0

/-- Result of one retryWithBackoff invocation: success, cancellation via
ctx.Done during a backoff sleep, or the final wrapped error carrying the
attempt count and the last underlying failure. -/
inductive RetryResult (ε α : Type) where
  | ok (a : α)
  | cancelled
  | exhausted (attempts : Nat) (last : ε)
  deriving DecidableEq

/-- Loop body of retryWithBackoff (identical in chromedp_scraper.go and
scraper_service.go). `attempt` is the Go loop index, `remaining` the number
of loop iterations still allowed after this one (`maxRetries - attempt`);
`cancel i` says whether ctx.Done fires during the sleep that follows a
failed attempt `i`; `fn i` is the outcome of invocation number `i` of the
wrapped operation. Returns the result together with the number of times
`fn` was invoked. -/
def retryGo (maxRetries : Nat) (cancel : Nat → Bool) (fn : Nat → Except ε α) :
    Nat → Nat → RetryResult ε α × Nat
  | attempt, 0 =>
      match fn attempt with
      | Except.ok a => (RetryResult.ok a, 1)
      | Except.error e => (RetryResult.exhausted (maxRetries + 1) e, 1)
  | attempt, remaining + 1 =>
      match fn attempt with
      | Except.ok a => (RetryResult.ok a, 1)
      | Except.error _ =>
          if cancel attempt then (RetryResult.cancelled, 1)
          else
            ((retryGo maxRetries cancel fn (attempt + 1) remaining).1,
             (retryGo maxRetries cancel fn (attempt + 1) remaining).2 + 1)

/-- retryWithBackoff: the loop `for attempt := 0; attempt <= maxRetries`
starts at attempt 0 with maxRetries further iterations allowed. -/
def retryWithBackoff (maxRetries : Nat) (cancel : Nat → Bool) (fn : Nat → Except ε α) :
    RetryResult ε α × Nat :=
  retryGo maxRetries cancel fn 0 maxRetries

/-- Backoff delay (nanoseconds) slept before retrying after failed attempt
`attempt`: initialBackoff * 2^attempt, capped at maxBackoff. -/
def backoffDelay (initialBackoff maxBackoff attempt : Nat) : Nat :=
  let backoff := initialBackoff * 2 ^ attempt
  if backoff > maxBackoff then maxBackoff else backoff

/-- RetryConfig from config/settings.go (durations in nanoseconds). -/
structure RetryConfig where
  MaxRetries : Nat
  InitialBackoff : Nat
  MaxBackoff : Nat
  deriving DecidableEq

/-- ConcurrencyConfig from config/settings.go. -/
structure ConcurrencyConfig where
  LocationWorkers : Nat
  ProductWorkers : Nat
  deriving DecidableEq

/-- The slice of config.Config the verified claims depend on. -/
structure Config where
  Concurrency : ConcurrencyConfig
  Retry : RetryConfig
  deriving DecidableEq

/-- config.Default(): LocationWorkers 3, ProductWorkers 3, MaxRetries 3,
InitialBackoff 2s, MaxBackoff 10s. -/
def configDefault : Config :=
  ⟨⟨3, 3⟩, ⟨3, 2000000000, 10000000000⟩⟩

/-- config.Dev(): Default with LocationWorkers 1 and ProductWorkers 2
(retry settings unchanged). -/
def configDev : Config :=
  ⟨⟨1, 2⟩, ⟨3, 2000000000, 10000000000⟩⟩

/-- Capacity of the Stage B semaphore in extractAllCardLinksConcurrent:
the source hardcodes a buffered channel of size 3. -/
def stageBGateCap : Nat := 3

/-- Stage C worker count: Scrape passes cfg.Concurrency.ProductWorkers to
extractProductsWorkerPool. -/
def stageCWorkerCount (cfg : Config) : Nat :=
  cfg.Concurrency.ProductWorkers

/-- Seed link extracted in Stage A (LocationLink in the source). -/
structure LocationLink where
  URL : String
  deriving DecidableEq

/-- Merge of the per-seed card links produced by
extractAllCardLinksConcurrent, determinised in seed order (the Go merge
order depends on goroutine scheduling; no claim depends on the order).
`cards` is the oracle for extractCardLinks on one seed URL. -/
def extractAllCardLinks (cards : String → List String) (locs : List LocationLink) :
    List String :=
  (locs.map (fun l => cards l.URL)).flatten

/-- Stage C collection in extractProductsWorkerPool: per-URL extraction
failures are logged and dropped, successes are collected. -/
def extractProducts (extract : String → Except String Property) (urls : List String) :
    List Property :=
  urls.filterMap (fun u => (extract u).toOption)

/-- ChromedpScraper.Scrape: step 1 seed discovery (its error aborts the
run), step 2 card-link fan-out, step 3 worker-pool detail extraction.
`discover` is the outcome of extractLocationLinks. -/
def Scrape (discover : Except String (List LocationLink))
    (cards : String → List String)
    (extract : String → Except String Property) : Except String (List Property) :=
  match discover with
  | Except.error e => Except.error e
  | Except.ok locs => Except.ok (extractProducts extract (extractAllCardLinks cards locs))

/-- Observable behaviour of one extractCardLinks call: the returned links,
the pages navigated, and how many pagination lookups were made. -/
structure CardLinksTrace where
  links : List String
  pagesFetched : List String
  nextLookups : Nat
  deriving DecidableEq

/-- ChromedpScraper.extractCardLinks: scrape page 1, look up the next-page
URL once while still on page 1, and if it is non-empty scrape exactly one
more page on the same tab; the two link lists are concatenated. `scrapePage`
is the oracle for scrapeCardPage and `findNext` for findNextPageURL (read
on the page the tab currently shows). -/
def extractCardLinks (scrapePage : String → List String) (findNext : String → String)
    (locationURL : String) : CardLinksTrace :=
  let page1 := scrapePage locationURL
  let nextURL := findNext locationURL
  if nextURL = "" then ⟨page1, [locationURL], 1⟩
  else ⟨page1 ++ scrapePage nextURL, [locationURL, nextURL], 1⟩

/-- Raw text fields read by the chromedp.Evaluate calls of extractProperty. -/
structure PageFields where
  title : String
  priceText : String
  ratingText : String
  location : String
  description : String
  deriving DecidableEq

/-- ChromedpScraper.extractProperty: if the retried chromedp.Run sequence
fails the error propagates; otherwise a record is assembled from the raw
fields, parsing price and rating and fixing Platform and URL. -/
def extractProperty (url : String) (run : Except String PageFields) :
    Except String Property :=
  match run with
  | Except.error e => Except.error e
  | Except.ok f =>
      Except.ok
        ⟨"Airbnb", f.title, ParsePrice f.priceText, f.location, url,
         ParseRating f.ratingText, f.description⟩

/-- ScraperService.Run composed with the scraper-level executor: the
browser-interaction sequence is retried under the scraper policy `scrapeP`
(chromedp_scraper.go holds its own Config) and the bulk save under the
service policy `saveP`; the save executor only runs when the scrape phase
succeeded. Returns the overall result with the invocation counts of the
two wrapped operations (0 save invocations when the save site is never
reached). -/
def runScrapeThenSave (scrapeP saveP : RetryConfig) (sc sv : Nat → Bool)
    (scrapeFn : Nat → Except ε α) (saveFn : Nat → Except ε Unit) :
    RetryResult ε α × Nat × Nat :=
  match retryWithBackoff scrapeP.MaxRetries sc scrapeFn with
  | (RetryResult.ok a, n1) =>
      match retryWithBackoff saveP.MaxRetries sv saveFn with
      | (RetryResult.ok _, n2) => (RetryResult.ok a, n1, n2)
      | (RetryResult.cancelled, n2) => (RetryResult.cancelled, n1, n2)
      | (RetryResult.exhausted k e, n2) => (RetryResult.exhausted k e, n1, n2)
  | (RetryResult.cancelled, n1) => (RetryResult.cancelled, n1, 0)
  | (RetryResult.exhausted k e, n1) => (RetryResult.exhausted k e, n1, 0)

/-- Events on the Stage B admission gate (the buffered channel sem):
acquire is `sem <- value`, release is `<-sem`. -/
inductive GateEvent where
  | acquire
  | release
  deriving DecidableEq

/-- Buffered-channel semantics of the gate: an acquire only proceeds while
fewer than `cap` holders exist (a full channel blocks the sender), a
release only while some holder exists. -/
def gateStep (cap holders : Nat) : GateEvent → Option Nat
  | GateEvent.acquire => if holders < cap then some (holders + 1) else none
  | GateEvent.release => if 0 < holders then some (holders - 1) else none

/-- Run a trace of gate events from a holder count. -/
def gateRun (cap : Nat) : Nat → List GateEvent → Option Nat
  | holders, [] => some holders
  | holders, e :: es =>
      match gateStep cap holders e with
      | none => none
      | some h2 => gateRun cap h2 es

/-- Stored row of the properties table (all columns except the url key;
id is synthetic and carries no data). -/
structure Row where
  platform : String
  title : String
  price : Rat
  location : String
  rating : Rat
  description : String
  deriving DecidableEq

/-- Persisted state of the properties table, keyed by the UNIQUE url
column. -/
def DBState : Type := String → Option Row

/-- Row created by a plain INSERT of a record. -/
def insertRow (p : Property) : Row :=
  ⟨p.Platform, p.Title, p.Price, p.Location, p.Rating, p.Description⟩

/-- ON CONFLICT (url) DO UPDATE SET: title, price, location, rating and
description are overwritten from the excluded record; platform is not in
the update list and is kept. -/
def updateRow (old : Row) (p : Property) : Row :=
  ⟨old.platform, p.Title, p.Price, p.Location, p.Rating, p.Description⟩

/-- Effect of one INSERT ... ON CONFLICT statement on the cell at the
record's url. -/
def cellStep (o : Option Row) (p : Property) : Row :=
  match o with
  | none => insertRow p
  | some old => updateRow old p

/-- Effect of one INSERT ... ON CONFLICT statement on the whole table. -/
def upsert (st : DBState) (p : Property) : DBState :=
  fun u => if p.URL = u then some (cellStep (st u) p) else st u

/-- State after executing the whole batch of inserts in order. -/
def applyBatch (st : DBState) (ps : List Property) : DBState :=
  ps.foldl upsert st

/-- The statement-execution loop inside the transaction: `failOn p` says
whether ExecContext fails on record p; the first failure aborts the loop. -/
def execInserts (failOn : Property → Bool) : DBState → List Property → Except String DBState
  | st, [] => Except.ok st
  | st, p :: rest =>
      if failOn p then Except.error "exec insert"
      else execInserts failOn (upsert st p) rest

/-- PostgresRepository.Save: an empty batch returns nil before any
transaction is opened; otherwise the inserts run inside one transaction
that commits on success and rolls back (leaving the persisted state
unchanged) on the first failure. Returns (error?, persisted state,
transaction opened?). -/
def Save (failOn : Property → Bool) (st : DBState) (ps : List Property) :
    Option String × DBState × Bool :=
  match ps with
  | [] => (none, st, false)
  | p :: rest =>
      match execInserts failOn st (p :: rest) with
      | Except.ok st2 => (none, st2, true)
      | Except.error e => (some e, st, true)

/-- The ExecContext oracle of a fault-free database. -/
def noFail : Property → Bool := fun _ => false

/-- Effect of a sequence of conflict-handling inserts on one url cell. -/
def cellFold (o : Option Row) (l : List Property) : Option Row :=
  List.foldl (fun o2 p => some (cellStep o2 p)) o l

/-- Sample record used by concrete witnesses. -/
def sampleProp : Property :=
  ⟨"Airbnb", "Loft", 120, "Paris, France", "https://a/1", 5, "nice"⟩

/-- The empty properties table. -/
def emptyDB : DBState := fun _ => none

example : ParsePrice "" = 0 := by decide
example : ParsePrice "abc" = 0 := by decide
example : ParseRating "" = 0 := by decide
example : ParseRating "x4" = 0 := by decide
example : retryWithBackoff 2 (fun _ => false) (fun i => (Except.error i : Except Nat Unit))
    = (RetryResult.exhausted 3 2, 3) := by decide
example : backoffDelay 2 10 0 = 2 := by decide
example : backoffDelay 2 10 3 = 10 := by decide
example : gateRun 3 0 [GateEvent.acquire, GateEvent.acquire, GateEvent.acquire] = some 3 := by
  decide

theorem retryGo_all_fail (maxRetries : Nat) (cancel : Nat → Bool) (fn : Nat → Except ε α)
    (err : Nat → ε)
    (herr : ∀ i, fn i = Except.error (err i)) (hc : ∀ i, cancel i = false) :
    ∀ remaining attempt, retryGo maxRetries cancel fn attempt remaining
      = (RetryResult.exhausted (maxRetries + 1) (err (attempt + remaining)), remaining + 1) := by
  intro remaining
  induction remaining with
  | zero =>
      intro attempt
      simp [retryGo, herr attempt]
  | succ r ih =>
      intro attempt
      simp only [retryGo, herr attempt, hc attempt, Bool.false_eq_true, if_false]
      rw [ih (attempt + 1)]
      have h2 : attempt + 1 + r = attempt + (r + 1) := by omega
      simp [h2]

theorem retryGo_count_le (maxRetries : Nat) (cancel : Nat → Bool) (fn : Nat → Except ε α) :
    ∀ remaining attempt, (retryGo maxRetries cancel fn attempt remaining).2 ≤ remaining + 1 := by
  intro remaining
  induction remaining with
  | zero =>
      intro a
      cases h : fn a <;> simp [retryGo, h]
  | succ r ih =>
      intro a
      cases h : fn a with
      | ok v => simp [retryGo, h]
      | error e =>
          by_cases hc : cancel a
          · simp [retryGo, h, hc]
          · simp only [retryGo, h, hc, Bool.false_eq_true, if_false]
            exact Nat.succ_le_succ (ih (a + 1))

/-- C1: when the wrapped operation fails on every attempt and no
cancellation fires, retryWithBackoff invokes the operation exactly
maxRetries+1 times and returns the exhausted error wrapping the failure of
the last attempt together with the attempt count maxRetries+1; in
particular the operation is invoked at least once for every
maxRetries >= 0. -/
theorem retryWithBackoff_exhausts_budget (maxRetries : Nat) (cancel : Nat → Bool)
    (fn : Nat → Except ε α) (err : Nat → ε)
    (herr : ∀ i, fn i = Except.error (err i)) (hc : ∀ i, cancel i = false) :
    retryWithBackoff maxRetries cancel fn
      = (RetryResult.exhausted (maxRetries + 1) (err maxRetries), maxRetries + 1)
    ∧ 1 ≤ (retryWithBackoff maxRetries cancel fn).2 := by
  have h := retryGo_all_fail maxRetries cancel fn err herr hc maxRetries 0
  constructor
  · simpa [retryWithBackoff] using h
  · rw [retryWithBackoff, h]
    simp

theorem retryWithBackoff_exhausts_budget_witness :
    retryWithBackoff 2 (fun _ => false) (fun i => (Except.error i : Except Nat Unit))
      = (RetryResult.exhausted 3 2, 3)
    ∧ 1 ≤ (retryWithBackoff 2 (fun _ => false)
        (fun i => (Except.error i : Except Nat Unit))).2 :=
  retryWithBackoff_exhausts_budget 2 (fun _ => false)
    (fun i => (Except.error i : Except Nat Unit)) (fun i => i)
    (fun _ => rfl) (fun _ => rfl)

theorem backoffDelay_eq_min (b m i : Nat) : backoffDelay b m i = min (b * 2 ^ i) m := by
  by_cases hx : b * 2 ^ i > m
  · simp [backoffDelay, hx, Nat.min_def, Nat.not_le.2 hx]
  · simp [backoffDelay, hx, Nat.min_def, Nat.not_lt.1 hx]

/-- C2: the delay slept before retry i+1 equals min(initialBackoff * 2^i,
maxBackoff), and the delay sequence is non-decreasing in the attempt index
(hence non-decreasing until it reaches the cap). -/
theorem backoffDelay_formula_monotone (b m i j : Nat) (h : i ≤ j) :
    backoffDelay b m i = min (b * 2 ^ i) m ∧ backoffDelay b m i ≤ backoffDelay b m j := by
  refine ⟨backoffDelay_eq_min b m i, ?_⟩
  rw [backoffDelay_eq_min b m i, backoffDelay_eq_min b m j]
  exact min_le_min (Nat.mul_le_mul_left b (Nat.pow_le_pow_right (by norm_num) h)) le_rfl

theorem backoffDelay_formula_monotone_witness :
    backoffDelay 2 10 1 = min (2 * 2 ^ 1) 10 ∧ backoffDelay 2 10 1 ≤ backoffDelay 2 10 3 :=
  backoffDelay_formula_monotone 2 10 1 3 (by decide)

theorem retryGo_cancelled (maxRetries : Nat) (cancel : Nat → Bool) (fn : Nat → Except ε α)
    (err : Nat → ε) :
    ∀ d attempt remaining, d < remaining →
      (∀ i, i ≤ attempt + d → fn i = Except.error (err i)) →
      (∀ i, attempt ≤ i → i < attempt + d → cancel i = false) →
      cancel (attempt + d) = true →
      retryGo maxRetries cancel fn attempt remaining = (RetryResult.cancelled, d + 1) := by
  intro d
  induction d with
  | zero =>
      intro attempt remaining hd herr hcf hct
      match remaining, hd with
      | r + 1, _ =>
        simp only [Nat.add_zero] at hct
        simp [retryGo, herr attempt (by omega), hct]
  | succ d ih =>
      intro attempt remaining hd herr hcf hct
      match remaining, hd with
      | r + 1, _ =>
        have h1 : fn attempt = Except.error (err attempt) := herr attempt (by omega)
        have h2 : cancel attempt = false := hcf attempt (Nat.le_refl _) (by omega)
        simp only [retryGo, h1, h2, Bool.false_eq_true, if_false]
        rw [ih (attempt + 1) r (by omega)
          (fun i hi => herr i (by omega))
          (fun i hi1 hi2 => hcf i (by omega) (by omega))
          (by have h3 : attempt + 1 + d = attempt + (d + 1) := by omega
              rw [h3]; exact hct)]

/-- C7: when the cancellation signal fires during the backoff sleep that
follows failed attempt k (with k < maxRetries and no earlier cancellation),
retryWithBackoff returns the cancellation error immediately: the wrapped
operation has been invoked exactly k+1 times and no further attempts are
made, short-circuiting the remaining retry budget. -/
theorem retryWithBackoff_cancel_short_circuits (maxRetries k : Nat) (cancel : Nat → Bool)
    (fn : Nat → Except ε α) (err : Nat → ε)
    (hk : k < maxRetries)
    (herr : ∀ i, i ≤ k → fn i = Except.error (err i))
    (hcf : ∀ i, i < k → cancel i = false)
    (hct : cancel k = true) :
    retryWithBackoff maxRetries cancel fn = (RetryResult.cancelled, k + 1)
    ∧ k + 1 ≤ maxRetries := by
  constructor
  · have h := retryGo_cancelled maxRetries cancel fn err k 0 maxRetries hk
      (fun i hi => herr i (by omega))
      (fun i hi1 hi2 => hcf i (by omega))
      (by simpa using hct)
    simpa [retryWithBackoff] using h
  · omega

theorem retryWithBackoff_cancel_short_circuits_witness :
    retryWithBackoff 3 (fun i => decide (i = 1)) (fun i => (Except.error i : Except Nat Unit))
      = (RetryResult.cancelled, 2)
    ∧ 2 ≤ 3 :=
  retryWithBackoff_cancel_short_circuits 3 1 (fun i => decide (i = 1))
    (fun i => (Except.error i : Except Nat Unit)) (fun i => i)
    (by decide)
    (fun i _ => rfl)
    (fun i hi => by
      have h0 : i = 0 := by omega
      subst h0
      rfl)
    rfl

/-- C4: the retry executor is invoked at two independent call sites — the
browser-interaction sequence, governed by the scraper Config, and the bulk
save, governed by the service Config. Each invocation starts a fresh
attempt counter: the invocation counts are bounded by the respective
MaxRetries+1 budgets, and the save executor behaves exactly like a
standalone invocation under its own policy, so scrape-site failures never
consume the save-site budget. -/
theorem retry_call_sites_independent (scrapeP saveP : RetryConfig) (sc sv : Nat → Bool)
    (f : Nat → Except ε α) (g : Nat → Except ε Unit) (a : α) (n1 : Nat)
    (h : retryWithBackoff scrapeP.MaxRetries sc f = (RetryResult.ok a, n1)) :
    (runScrapeThenSave scrapeP saveP sc sv f g).2.1 ≤ scrapeP.MaxRetries + 1
    ∧ (runScrapeThenSave scrapeP saveP sc sv f g).2.2
        = (retryWithBackoff saveP.MaxRetries sv g).2
    ∧ (runScrapeThenSave scrapeP saveP sc sv f g).2.2 ≤ saveP.MaxRetries + 1 := by
  have hb1 : n1 ≤ scrapeP.MaxRetries + 1 := by
    have hc := retryGo_count_le scrapeP.MaxRetries sc f scrapeP.MaxRetries 0
    rw [retryWithBackoff] at h
    rw [h] at hc
    simpa using hc
  have hb2 : (retryWithBackoff saveP.MaxRetries sv g).2 ≤ saveP.MaxRetries + 1 :=
    retryGo_count_le saveP.MaxRetries sv g saveP.MaxRetries 0
  cases hs : retryWithBackoff saveP.MaxRetries sv g with
  | mk res n2 =>
    have hn2 : n2 ≤ saveP.MaxRetries + 1 := by
      rw [hs] at hb2
      simpa using hb2
    cases res with
    | ok u => exact ⟨by simp [runScrapeThenSave, h, hs, hb1], by
        simp [runScrapeThenSave, h, hs], by simp [runScrapeThenSave, h, hs, hn2]⟩
    | cancelled => exact ⟨by simp [runScrapeThenSave, h, hs, hb1], by
        simp [runScrapeThenSave, h, hs], by simp [runScrapeThenSave, h, hs, hn2]⟩
    | exhausted k e => exact ⟨by simp [runScrapeThenSave, h, hs, hb1], by
        simp [runScrapeThenSave, h, hs], by simp [runScrapeThenSave, h, hs, hn2]⟩

theorem retry_call_sites_independent_witness :
    (runScrapeThenSave ⟨1, 2, 10⟩ ⟨2, 3, 7⟩ (fun _ => false) (fun _ => false)
        (fun _ => (Except.ok 42 : Except Nat Nat))
        (fun _ => (Except.error 5 : Except Nat Unit))).2.1 ≤ 2
    ∧ (runScrapeThenSave ⟨1, 2, 10⟩ ⟨2, 3, 7⟩ (fun _ => false) (fun _ => false)
        (fun _ => (Except.ok 42 : Except Nat Nat))
        (fun _ => (Except.error 5 : Except Nat Unit))).2.2
        = (retryWithBackoff 2 (fun _ => false) (fun _ => (Except.error 5 : Except Nat Unit))).2
    ∧ (runScrapeThenSave ⟨1, 2, 10⟩ ⟨2, 3, 7⟩ (fun _ => false) (fun _ => false)
        (fun _ => (Except.ok 42 : Except Nat Nat))
        (fun _ => (Except.error 5 : Except Nat Unit))).2.2 ≤ 3 :=
  retry_call_sites_independent ⟨1, 2, 10⟩ ⟨2, 3, 7⟩ (fun _ => false) (fun _ => false)
    (fun _ => (Except.ok 42 : Except Nat Nat))
    (fun _ => (Except.error 5 : Except Nat Unit)) 42 1 (by decide)

/-- C3 counterexample: a run whose seed discovery succeeds with zero seed
links is not aborted — Scrape returns an ok empty record list, not an
error, even when every downstream extraction would fail. -/
theorem scrape_zero_seeds_counterexample :
    Scrape (Except.ok []) (fun _ => []) (fun _ => Except.error "navigate failed")
      = Except.ok [] := rfl

/-- C3 amended: Scrape aborts exactly when seed discovery itself returns an
error (navigation or JSON-parse failure); a successfully discovered seed
list, empty included, always yields an ok result. -/
theorem scrape_errs_iff_discovery_errs (cards : String → List String)
    (extract : String → Except String Property)
    (discover : Except String (List LocationLink)) :
    (∃ e, Scrape discover cards extract = Except.error e)
      ↔ (∃ e, discover = Except.error e) := by
  cases discover with
  | ok locs => simp [Scrape]
  | error e => simp [Scrape]

/-- C5: one extractCardLinks call fetches at most 2 pages for a seed, looks
up a next-page URL exactly once (while still on page 1), and returns the
page-1 links concatenated with the page-2 links (page 2 being fetched only
when the lookup found a non-empty href) — even for a seed whose pages
always report a next-page link. -/
theorem extractCardLinks_two_page_cap (scrapePage : String → List String)
    (findNext : String → String) (locationURL : String) :
    (extractCardLinks scrapePage findNext locationURL).pagesFetched.length ≤ 2
    ∧ (extractCardLinks scrapePage findNext locationURL).nextLookups = 1
    ∧ (extractCardLinks scrapePage findNext locationURL).links
        = scrapePage locationURL
          ++ (if findNext locationURL = "" then []
              else scrapePage (findNext locationURL)) := by
  by_cases h : findNext locationURL = "" <;> simp [extractCardLinks, h]

/-- C6: a detail extraction whose page load succeeds but whose every
selector-based field lookup returns the empty string still produces a
record, not an error: URL is the input URL, the text fields are empty, and
Price and Rating are zero because ParsePrice and ParseRating map empty (or
malformed) numeric text to zero instead of failing. -/
theorem extractProperty_empty_fields_record (url : String) :
    extractProperty url (Except.ok ⟨"", "", "", "", ""⟩)
      = Except.ok ⟨"Airbnb", "", 0, "", url, 0, ""⟩
    ∧ ParsePrice "" = 0 ∧ ParseRating "" = 0 ∧ ParsePrice "N/A" = 0 := by
  have hp : ParsePrice "" = 0 := by decide
  have hr : ParseRating "" = 0 := by decide
  have hm : ParsePrice "N/A" = 0 := by decide
  exact ⟨by simp [extractProperty, hp, hr], hp, hr, hm⟩

theorem gateRun_le (cap : Nat) :
    ∀ (tr : List GateEvent) (h h2 : Nat), h ≤ cap →
      gateRun cap h tr = some h2 → h2 ≤ cap := by
  intro tr
  induction tr with
  | nil =>
      intro h h2 hle he
      simp [gateRun] at he
      omega
  | cons e es ih =>
      intro h h2 hle he
      cases e with
      | acquire =>
          by_cases hlt : h < cap
          · simp [gateRun, gateStep, hlt] at he
            exact ih (h + 1) h2 (by omega) he
          · simp [gateRun, gateStep, hlt] at he
      | release =>
          by_cases hpos : 0 < h
          · simp [gateRun, gateStep, hpos] at he
            exact ih (h - 1) h2 (by omega) he
          · simp [gateRun, gateStep, hpos] at he

/-- C9 evaluation at the failing configuration: the Stage B admission gate
is the hardcoded 3-slot channel, so under config.Dev() — whose
LocationWorkers field (documented as the max concurrent browser tabs when
scraping location pages) is 1 — a state with 3 simultaneously open Stage B
sessions is reachable, exceeding the configured seed-fanout width; the
Stage C pool, by contrast, does take its width from the configuration. -/
theorem stageB_gate_ignores_config :
    gateRun stageBGateCap 0 [GateEvent.acquire, GateEvent.acquire, GateEvent.acquire]
      = some 3
    ∧ stageBGateCap = 3
    ∧ configDev.Concurrency.LocationWorkers = 1
    ∧ configDev.Concurrency.LocationWorkers < 3
    ∧ stageCWorkerCount configDev = configDev.Concurrency.ProductWorkers := by
  decide

theorem cellFold_nil (o : Option Row) : cellFold o [] = o := rfl

theorem cellFold_cons (o : Option Row) (p : Property) (l : List Property) :
    cellFold o (p :: l) = cellFold (some (cellStep o p)) l := rfl

theorem cellFold_some (l : List Property) :
    ∀ (r : Row), cellFold (some r) l = some (List.foldl updateRow r l) := by
  induction l with
  | nil => intro r; rfl
  | cons p rest ih =>
      intro r
      rw [cellFold_cons]
      have h1 : cellStep (some r) p = updateRow r p := rfl
      rw [h1, ih (updateRow r p)]
      rfl

theorem applyBatch_cell (u : String) :
    ∀ (ps : List Property) (st : DBState),
      applyBatch st ps u = cellFold (st u) (ps.filter (fun p => p.URL == u)) := by
  intro ps
  induction ps with
  | nil => intro st; rfl
  | cons p rest ih =>
      intro st
      have hstep : applyBatch st (p :: rest) = applyBatch (upsert st p) rest := by
        simp [applyBatch]
      rw [hstep, ih (upsert st p)]
      by_cases h : p.URL = u
      · have hb : (p.URL == u) = true := by simpa using h
        simp [List.filter_cons, hb, cellFold_cons, upsert, h]
      · have hb : (p.URL == u) = false := by simpa using h
        simp [List.filter_cons, hb, upsert, h]

theorem foldl_updateRow_platform (l : List Property) :
    ∀ (x : Row), (List.foldl updateRow x l).platform = x.platform := by
  induction l with
  | nil => intro x; rfl
  | cons p rest ih =>
      intro x
      have h1 : List.foldl updateRow x (p :: rest) = List.foldl updateRow (updateRow x p) rest :=
        rfl
      rw [h1, ih (updateRow x p)]
      rfl

theorem foldl_updateRow_congr :
    ∀ (l : List Property) (x y : Row),
      x.platform = y.platform → l ≠ [] →
      List.foldl updateRow x l = List.foldl updateRow y l := by
  intro l
  induction l with
  | nil => intro x y h hne; exact absurd rfl hne
  | cons p rest ih =>
      intro x y h hne
      simp only [List.foldl_cons]
      cases rest with
      | nil => simp [updateRow, h]
      | cons q r2 =>
          exact ih (updateRow x p) (updateRow y p) (by simp [updateRow, h]) (by simp)

theorem cellFold_idem : ∀ (l : List Property) (o : Option Row),
    cellFold (cellFold o l) l = cellFold o l := by
  intro l
  cases l with
  | nil => intro o; rfl
  | cons p rest =>
      intro o
      have h1 : cellFold o (p :: rest) = some (List.foldl updateRow (cellStep o p) rest) := by
        rw [cellFold_cons, cellFold_some]
      rw [h1, cellFold_cons]
      have h2 : cellStep (some (List.foldl updateRow (cellStep o p) rest)) p
          = updateRow (List.foldl updateRow (cellStep o p) rest) p := rfl
      rw [h2, cellFold_some]
      cases rest with
      | nil =>
          cases o with
          | none => simp [cellStep, insertRow, updateRow]
          | some r => simp [cellStep, updateRow]
      | cons q r2 =>
          have hx : (updateRow (List.foldl updateRow (cellStep o p) (q :: r2)) p).platform
              = (cellStep o p).platform := by
            have h4 : (updateRow (List.foldl updateRow (cellStep o p) (q :: r2)) p).platform
                = (List.foldl updateRow (cellStep o p) (q :: r2)).platform := rfl
            rw [h4]
            exact foldl_updateRow_platform (q :: r2) (cellStep o p)
          rw [foldl_updateRow_congr (q :: r2) _ _ hx (by simp)]

theorem applyBatch_idem (st : DBState) (ps : List Property) :
    applyBatch (applyBatch st ps) ps = applyBatch st ps := by
  funext u
  rw [applyBatch_cell u ps (applyBatch st ps), applyBatch_cell u ps st]
  exact cellFold_idem _ _

theorem execInserts_noFail : ∀ (ps : List Property) (st : DBState),
    execInserts noFail st ps = Except.ok (applyBatch st ps) := by
  intro ps
  induction ps with
  | nil => intro st; rfl
  | cons p rest ih =>
      intro st
      have h1 : execInserts noFail st (p :: rest) = execInserts noFail (upsert st p) rest := by
        simp [execInserts, noFail]
      rw [h1, ih (upsert st p)]
      simp [applyBatch]

theorem save_noFail (st : DBState) (ps : List Property) (h : ps ≠ []) :
    Save noFail st ps = (none, applyBatch st ps, true) := by
  cases ps with
  | nil => exact absurd rfl h
  | cons p rest => simp [Save, execInserts_noFail]

/-- C8: on a fault-free database, saving a non-empty batch twice leaves the
persisted state identical to saving it once — the table is keyed by the url
column, so re-saving the same batch performs conflict updates of the
mutable fields rather than inserting duplicate rows. -/
theorem save_idempotent_by_url (st : DBState) (ps : List Property) (h : ps ≠ []) :
    (Save noFail ((Save noFail st ps).2.1) ps).2.1 = (Save noFail st ps).2.1 := by
  rw [save_noFail st ps h]
  rw [show ((none : Option String), applyBatch st ps, true).2.1 = applyBatch st ps from rfl]
  rw [save_noFail (applyBatch st ps) ps h]
  exact applyBatch_idem st ps

theorem save_idempotent_by_url_witness :
    (Save noFail ((Save noFail emptyDB [sampleProp]).2.1) [sampleProp]).2.1
      = (Save noFail emptyDB [sampleProp]).2.1 :=
  save_idempotent_by_url emptyDB [sampleProp] (by simp)

/-- C10: PostgresRepository.Save is atomic per call — when any insert of
the batch fails the transaction is rolled back and the persisted state is
unchanged — and Save of an empty slice returns nil immediately without
opening a transaction or modifying the state. -/
theorem save_atomic_rollback_and_empty_noop (failOn : Property → Bool) (st : DBState)
    (ps : List Property) (e : String) (h : (Save failOn st ps).1 = some e) :
    (Save failOn st ps).2.1 = st ∧ Save failOn st [] = (none, st, false) := by
  refine ⟨?_, rfl⟩
  cases ps with
  | nil => simp [Save] at h
  | cons p rest =>
      simp only [Save] at h ⊢
      cases hx : execInserts failOn st (p :: rest) with
      | ok st2 => rw [hx] at h; simp at h
      | error e2 => rfl

theorem save_atomic_rollback_and_empty_noop_witness :
    (Save (fun _ => true) emptyDB [sampleProp]).2.1 = emptyDB
    ∧ Save (fun _ => true) emptyDB [] = (none, emptyDB, false) :=
  save_atomic_rollback_and_empty_noop (fun _ => true) emptyDB [sampleProp] "exec insert" rfl
